import Mathlib

/-!
Verification of the Codeforces API client (`src/codeforces/methods.py` and
`src/codeforces/objects.py`) against its natural-language specification.

The Python code is shallowly embedded: dictionaries become association lists
preserving insertion order, Python values become the `PyVal` inductive,
exceptions become `Except`, and the runtime-injected quantities of
`getCfAuth` (the random nonce token from `secrets.token_urlsafe(6)` and the
current Unix time from `int(time.time())`) become explicit parameters, as does
the memory address of the freshly allocated `hashlib.sha512` object (which is
observable because the code formats the object itself with an f-string).
-/

/-- A Python value as it occurs in the parameter dictionaries of
`methods.py`: `None`, booleans, integers, strings, and lists of strings. -/
inductive PyVal where
  | none
  | bool (b : Bool)
  | int (n : Int)
  | str (s : String)
  | list (xs : List String)
deriving DecidableEq, Repr

/-- A Python `dict` with string keys, as an insertion-ordered association
list (Python 3.7+ dicts preserve insertion order). -/
abbrev PyDict := List (String × PyVal)

/-- Python's `str.join`: `sep.join([x, y, z]) = x ++ sep ++ y ++ sep ++ z`,
`sep.join([]) = ""`. -/
def pyJoin (sep : String) : List String → String
  | [] => ""
  | [x] => x
  | x :: y :: rest => x ++ sep ++ pyJoin sep (y :: rest)

/-- A decimal or lowercase-hexadecimal digit character (0-9, a-f). -/
def digitCh (n : Nat) : Char :=
  if n < 10 then Char.ofNat (48 + n) else Char.ofNat (87 + n)

/-- Digit list of `n` in the given base, most significant first
(fuel-based recursion; `fuel = n + 1` suffices). -/
def natToBaseAux (base : Nat) : Nat → Nat → List Char
  | 0, _ => []
  | fuel + 1, n =>
      if n < base then [digitCh n]
      else natToBaseAux base fuel (n / base) ++ [digitCh (n % base)]

/-- Decimal rendering of a natural number, as Python `str`. -/
def natToDec (n : Nat) : String := ⟨natToBaseAux 10 (n + 1) n⟩

/-- Lowercase hexadecimal rendering of a natural number (no `0x`),
as CPython `%p` pointer formatting. -/
def natToHex (n : Nat) : String := ⟨natToBaseAux 16 (n + 1) n⟩

/-- Decimal rendering of an integer, as Python `str`. -/
def intToDec : Int → String
  | .ofNat n => natToDec n
  | .negSucc n => "-" ++ natToDec (n + 1)

/-- The single-quote character, used by Python `repr` of strings. -/
def pyQuoteChar : Char := Char.ofNat 39

/-- Python `str()` rendering of a value, as used by f-string interpolation in
`methods.py` (`f"{param}={value}"`): `None`, `True`/`False`, decimal
integers, strings verbatim, and lists via `repr` of their elements. -/
def pyStr : PyVal → String
  | .none => "None"
  | .bool true => "True"
  | .bool false => "False"
  | .int n => intToDec n
  | .str s => s
  | .list xs =>
      "[" ++ pyJoin ", " (xs.map fun s => String.mk [pyQuoteChar] ++ s ++ String.mk [pyQuoteChar]) ++ "]"

/-- Python dict assignment `d[k] = v`: overwrite in place if `k` is present,
otherwise append at the end (insertion order). -/
def dictSet (d : PyDict) (k : String) (v : PyVal) : PyDict :=
  if (d.map Prod.fst).contains k then
    d.map fun p => if p.1 = k then (k, v) else p
  else
    d ++ [(k, v)]

/-- Python dict lookup `d[k]` (as an `Option`). -/
def dictLookup (k : String) : PyDict → Option PyVal
  | [] => Option.none
  | (k2, v) :: rest => if k2 = k then some v else dictLookup k rest

/-- Lexicographic (code-point) less-or-equal on character lists: exactly
Python's string comparison, and equivalent to the `≤` of `String`. -/
def charListLe : List Char → List Char → Bool
  | [], _ => true
  | _ :: _, [] => false
  | a :: as, b :: bs =>
      if a < b then true else if b < a then false else charListLe as bs

/-- Boolean string comparison by code points (Python `<=` on `str`). -/
def strLeb (a b : String) : Bool := charListLe a.data b.data

/-- Insert a dict item into a list sorted ascending by key. -/
def pyInsort (p : String × PyVal) : PyDict → PyDict
  | [] => [p]
  | q :: qs => if strLeb p.1 q.1 then p :: q :: qs else q :: pyInsort p qs

/-- Python's `sorted(payload.items())`: items sorted ascending.  Keys are
unique in a dict, so comparing `(key, value)` tuples amounts to comparing
keys by code points.  Modelled by insertion sort (any stable sort agrees on
lists with pairwise-distinct keys). -/
def pySorted : PyDict → PyDict
  | [] => []
  | p :: ps => pyInsort p (pySorted ps)

/-- A `hashlib.sha512` hash object: the data it was fed (the UTF-8 bytes of
the signing string, kept here as the string itself) and the CPython memory
address at which the object was allocated. -/
structure HashObject where
  inputData : String
  addr : Nat
deriving DecidableEq

/-- Python `str()` of a `hashlib` hash object: CPython renders
`<sha512 _hashlib.HASH object @ 0xADDR>` — the digest does not appear; the
rendering depends only on the object's memory address. -/
def pyStrOfHash (h : HashObject) : String :=
  "<sha512 _hashlib.HASH object @ 0x" ++ natToHex h.addr ++ ">"

/-- The signing string `randStr` computed inside `getCfAuth`
(methods.py lines 35-42): after inserting `apiKey` and `time` into the
payload, `rand = secrets.token_urlsafe(6)[:6]` (the token is injected as
`nonceToken`), `sortedParams = "&".join(f"{param}={value}" ...)` over the
sorted items, and `randStr = f"{rand}/{methodName}?{sortedParams}#{secret}"`. -/
def getCfAuthRandStr (key secret : Int) (methodName : String) (payload : PyDict)
    (nonceToken : String) (currTime : Int) : String :=
  let payload1 := dictSet payload "apiKey" (.int key)
  let payload2 := dictSet payload1 "time" (.int currTime)
  let rand := nonceToken.take 6
  let sortedParams := pyJoin "&" ((pySorted payload2).map fun p => p.1 ++ "=" ++ pyStr p.2)
  rand ++ "/" ++ methodName ++ "?" ++ sortedParams ++ "#" ++ pyStr (.int secret)

/-- Model of `getCfAuth` (methods.py lines 28-45). The nonce token, current time and
the address of the allocated hash object are injected parameters. Note the
source's line 44 `payload["apiSig"] = f"{rand}{hash}"` interpolates the hash
OBJECT, not `hash.hexdigest()`, so `apiSig` is the nonce followed by the
`str()` rendering of the object. -/
def getCfAuth (key secret : Int) (methodName : String) (payload : PyDict)
    (nonceToken : String) (currTime : Int) (hashAddr : Nat) : PyDict :=
  let payload1 := dictSet payload "apiKey" (.int key)
  let payload2 := dictSet payload1 "time" (.int currTime)
  let rand := nonceToken.take 6
  let randStr := getCfAuthRandStr key secret methodName payload nonceToken currTime
  let hashObj : HashObject := ⟨randStr, hashAddr⟩
  dictSet payload2 "apiSig" (.str (rand ++ pyStrOfHash hashObj))

/-- An optional Python bool argument as a dict value (`None` when unset). -/
def pyOfOptBool : Option Bool → PyVal
  | Option.none => .none
  | some b => .bool b

/-- An optional Python int argument as a dict value (`None` when unset). -/
def pyOfOptInt : Option Int → PyVal
  | Option.none => .none
  | some n => .int n

/-- An optional Python string argument as a dict value (`None` when unset). -/
def pyOfOptStr : Option String → PyVal
  | Option.none => .none
  | some s => .str s

/-- The payload dict built by `getUserFriends` (methods.py lines 360-362)
before it is passed to `getCfAuth`. -/
def getUserFriendsPayload (onlyOnline : Option Bool) : PyDict :=
  [("onlyOnline", pyOfOptBool onlyOnline)]

/-- The full authenticated payload transmitted by `getUserFriends`
(methods.py line 363): `payload = getCfAuth(key, secret, methodName, payload)`. -/
def getUserFriendsAuthedPayload (key secret : Int) (onlyOnline : Option Bool)
    (nonceToken : String) (currTime : Int) (hashAddr : Nat) : PyDict :=
  getCfAuth key secret "user.friends" (getUserFriendsPayload onlyOnline)
    nonceToken currTime hashAddr

/-- The payload dict built by `getUserInfo` (methods.py lines 387-389):
`handles` is joined with `";"` unconditionally, so an empty list becomes the
empty string. -/
def getUserInfoPayload (handles : List String) : PyDict :=
  [("handles", .str (pyJoin ";" handles))]

/-- The payload dict built by `getProblemsetProblems` (methods.py lines
251-254): `tags` is joined with `";"` unconditionally. -/
def getProblemsetProblemsPayload (tags : List String) (problemsetName : Option String) :
    PyDict :=
  [("tags", .str (pyJoin ";" tags)), ("problemsetName", pyOfOptStr problemsetName)]

/-- The payload dict built by `getContestStandings` (methods.py lines
185-191): `"handles": ";".join(handles) if handles else handles`, so `None`
and the empty list (both falsy) are kept as-is.  The `room` and
`showUnofficial` arguments of the function do not appear in the payload. -/
def getContestStandingsPayload (contestId : Int) (asManager : Option Bool)
    (from_ count : Option Int) (handles : Option (List String))
    (room : Option Int) (showUnofficial : Option Bool) : PyDict :=
  [("contestId", .int contestId),
   ("asManager", pyOfOptBool asManager),
   ("from", pyOfOptInt from_),
   ("count", pyOfOptInt count),
   ("handles",
     match handles with
     | some (h :: hs) => .str (pyJoin ";" (h :: hs))
     | some [] => .list []
     | Option.none => .none)]

/-- The payload dict built by `getUserStatus` (methods.py lines 473-475):
only `handle` is included; the `from_` and `count` arguments are unused. -/
def getUserStatusPayload (handle : String) (from_ count : Option Int) : PyDict :=
  [("handle", .str handle)]

/-- Modelled from the spec: the query-string encoding performed by the
external `requests` library (not part of this repository) when a dict is
passed as the `params` argument of `requests.get` — "any parameter whose
value is absent/unset is dropped before transmission (never sent as
empty/null)"; list values contribute one `key=element` pair per element
(hence an empty list contributes nothing); other scalars are rendered in
their natural textual form. -/
def requestsEncode : PyDict → List (String × String)
  | [] => []
  | (k, v) :: rest =>
      match v with
      | .none => requestsEncode rest
      | .list xs => (xs.map fun x => (k, x)) ++ requestsEncode rest
      | v => (k, pyStr v) :: requestsEncode rest

/-- A JSON value, as returned by `r.json()`. -/
inductive Json where
  | null
  | bool (b : Bool)
  | num (n : Int)
  | str (s : String)
  | arr (xs : List Json)
  | obj (fields : List (String × Json))

/-- Lookup in the field list of a JSON object. -/
def jsonFieldLookup : List (String × Json) → String → Option Json
  | [], _ => Option.none
  | (k, v) :: rest, key => if k = key then some v else jsonFieldLookup rest key

/-- Field access `j[k]` as an `Option`: `some` when `j` is an object
containing key `k`. -/
def Json.getField : Json → String → Option Json
  | .obj fs, key => jsonFieldLookup fs key
  | _, _ => Option.none

/-- A Python exception as raised during response handling: `KeyError` from
`r.json()["result"]`, pydantic's `ValidationError` (the spec's
`ResponseValidationError`) from `parse_obj`, and `TypeError` from iterating
a non-list. -/
inductive PyExc where
  | keyError (k : String)
  | validationError (field : String) (msg : String)
  | typeError (msg : String)
deriving DecidableEq, Repr

/-- Chain a parse step, as pydantic validation of consecutive fields. -/
theorem exceptBind_ok {ε α β : Type} {e : Except ε α} {k : α → Except ε β} {b : β}
    (h : (e >>= k) = .ok b) : ∃ a, e = .ok a ∧ k a = .ok b := by
  cases e with
  | error err => exact absurd h (by simp [Bind.bind, Except.bind])
  | ok a => exact ⟨a, rfl, by simpa [Bind.bind, Except.bind] using h⟩

/-!
Field validators. Modelled from the spec: pydantic (an external library;
only the field declarations are in `objects.py`) validates each declared
field of the raw object, collecting into a `ValidationError` — modelled
here as the first failing field.  Pydantic v1 semantics are assumed, as the
spec does ("decoding succeeds only when difficulty is absent or lies within
1–5"): a field with an `Optional[...]` annotation defaults to `None` when
the key is missing; a required field with a missing key is an error.
Numeric coercion niceties (e.g. `"7"` → `7`) are not modelled: numbers must
arrive as JSON numbers, strings as JSON strings, booleans as JSON booleans.
-/

/-- Required `int` field. -/
def reqInt (j : Json) (k : String) : Except PyExc Int :=
  match j.getField k with
  | some (.num n) => .ok n
  | some _ => .error (.validationError k "value is not a valid integer")
  | Option.none => .error (.validationError k "field required")

/-- Required `str` field. -/
def reqStr (j : Json) (k : String) : Except PyExc String :=
  match j.getField k with
  | some (.str s) => .ok s
  | some _ => .error (.validationError k "str type expected")
  | Option.none => .error (.validationError k "field required")

/-- Required `bool` field. -/
def reqBool (j : Json) (k : String) : Except PyExc Bool :=
  match j.getField k with
  | some (.bool b) => .ok b
  | some _ => .error (.validationError k "value is not a valid boolean")
  | Option.none => .error (.validationError k "field required")

/-- Required `NonNegativeInt` field. -/
def reqNonNegInt (j : Json) (k : String) : Except PyExc Nat :=
  match j.getField k with
  | some (.num n) =>
      if h : 0 ≤ n then .ok n.toNat
      else .error (.validationError k "ensure this value is greater than or equal to 0")
  | some _ => .error (.validationError k "value is not a valid integer")
  | Option.none => .error (.validationError k "field required")

/-- Optional `str` field (missing or `null` becomes `None`). -/
def optStrF (j : Json) (k : String) : Except PyExc (Option String) :=
  match j.getField k with
  | Option.none => .ok Option.none
  | some .null => .ok Option.none
  | some (.str s) => .ok (some s)
  | some _ => .error (.validationError k "str type expected")

/-- Optional `int` field (`StrictInt` or plain `int`). -/
def optIntF (j : Json) (k : String) : Except PyExc (Option Int) :=
  match j.getField k with
  | Option.none => .ok Option.none
  | some .null => .ok Option.none
  | some (.num n) => .ok (some n)
  | some _ => .error (.validationError k "value is not a valid integer")

/-- Optional `NonNegativeInt` field. -/
def optNonNegIntF (j : Json) (k : String) : Except PyExc (Option Nat) :=
  match j.getField k with
  | Option.none => .ok Option.none
  | some .null => .ok Option.none
  | some (.num n) =>
      if h : 0 ≤ n then .ok (some n.toNat)
      else .error (.validationError k "ensure this value is greater than or equal to 0")
  | some _ => .error (.validationError k "value is not a valid integer")

/-- Optional `int` field with a `ge`/`le` range constraint, as
`difficulty: Optional[int] = Field(ge=1, le=5)`. -/
def optIntRangeF (lo hi : Int) (j : Json) (k : String) : Except PyExc (Option Int) :=
  match j.getField k with
  | Option.none => .ok Option.none
  | some .null => .ok Option.none
  | some (.num n) =>
      if lo ≤ n ∧ n ≤ hi then .ok (some n)
      else .error (.validationError k "range")
  | some _ => .error (.validationError k "value is not a valid integer")

/-- Optional `HttpUrl` field: pydantic requires an http or https URL. -/
def optHttpUrlF (j : Json) (k : String) : Except PyExc (Option String) :=
  match j.getField k with
  | Option.none => .ok Option.none
  | some .null => .ok Option.none
  | some (.str s) =>
      if "http://".isPrefixOf s ∨ "https://".isPrefixOf s then .ok (some s)
      else .error (.validationError k "invalid or missing URL scheme")
  | some _ => .error (.validationError k "str type expected")

/-- Required enumeration field: a string drawn from a fixed value set. -/
def reqEnum (valid : List String) (j : Json) (k : String) : Except PyExc String :=
  match j.getField k with
  | some (.str s) =>
      if s ∈ valid then .ok s
      else .error (.validationError k "value is not a valid enumeration member")
  | some _ => .error (.validationError k "value is not a valid enumeration member")
  | Option.none => .error (.validationError k "field required")

/-- Members of the `ContestType` enumeration (objects.py lines 80-83). -/
def contestTypeMembers : List String := ["CF", "IOI", "ICPC"]

/-- Members of the `ContestPhase` enumeration (objects.py lines 86-91). -/
def contestPhaseMembers : List String :=
  ["BEFORE", "CODING", "PENDING_SYSTEM_TEST", "SYSTEM_TEST", "FINISHED"]

/-- The `Contest` model (objects.py lines 94-114).  Enumerated fields are
kept as their validated member strings. -/
structure Contest where
  id : Int
  name : String
  type : String
  phase : String
  frozen : Bool
  durationSeconds : Nat
  startTimeSeconds : Option Nat
  relativeTimeSeconds : Option Int
  preparedBy : Option String
  websiteUrl : Option String
  description : Option String
  difficulty : Option Int
  kind : Option String
  icpcRegion : Option String
  country : Option String
  city : Option String
  season : Option String
deriving DecidableEq, Repr

/-- Model of `Contest.parse_obj`: pydantic validation of a raw JSON object against
the `Contest` field declarations.  `difficulty` carries `Field(ge=1, le=5)`;
`kind` carries a `pattern=` keyword which pydantic v1 stores as inert extra
metadata without validating it, so it is checked as a plain optional
string here. -/
def Contest.parseObj (j : Json) : Except PyExc Contest := do
  let id ← reqInt j "id"
  let name ← reqStr j "name"
  let ctype ← reqEnum contestTypeMembers j "type"
  let phase ← reqEnum contestPhaseMembers j "phase"
  let frozen ← reqBool j "frozen"
  let durationSeconds ← reqNonNegInt j "durationSeconds"
  let startTimeSeconds ← optNonNegIntF j "startTimeSeconds"
  let relativeTimeSeconds ← optIntF j "relativeTimeSeconds"
  let preparedBy ← optStrF j "preparedBy"
  let websiteUrl ← optHttpUrlF j "websiteUrl"
  let description ← optStrF j "description"
  let difficulty ← optIntRangeF 1 5 j "difficulty"
  let kind ← optStrF j "kind"
  let icpcRegion ← optStrF j "icpcRegion"
  let country ← optStrF j "country"
  let city ← optStrF j "city"
  let season ← optStrF j "season"
  pure ⟨id, name, ctype, phase, frozen, durationSeconds, startTimeSeconds,
        relativeTimeSeconds, preparedBy, websiteUrl, description, difficulty,
        kind, icpcRegion, country, city, season⟩

/-- The `Comment` model (objects.py lines 48-57). -/
structure Comment where
  id : Int
  creationTimeSeconds : Nat
  commentatorHandle : String
  locale : String
  text : String
  parentCommentId : Option Int
  rating : Nat
deriving DecidableEq, Repr

/-- Model of `Comment.parse_obj`: pydantic validation against the `Comment`
fields. -/
def Comment.parseObj (j : Json) : Except PyExc Comment := do
  let id ← reqInt j "id"
  let creationTimeSeconds ← reqNonNegInt j "creationTimeSeconds"
  let commentatorHandle ← reqStr j "commentatorHandle"
  let locale ← reqStr j "locale"
  let text ← reqStr j "text"
  let parentCommentId ← optIntF j "parentCommentId"
  let rating ← reqNonNegInt j "rating"
  pure ⟨id, creationTimeSeconds, commentatorHandle, locale, text,
        parentCommentId, rating⟩

/-- Model of `[Contest.parse_obj(contest) for contest in result]`: the first
validation failure propagates as the raised exception. -/
def parseContestList : List Json → Except PyExc (List Contest)
  | [] => .ok []
  | j :: js => do
      let c ← Contest.parseObj j
      let cs ← parseContestList js
      pure (c :: cs)

/-- Model of `[Comment.parse_obj(comment) for comment in result]`. -/
def parseCommentList : List Json → Except PyExc (List Comment)
  | [] => .ok []
  | j :: js => do
      let c ← Comment.parseObj j
      let cs ← parseCommentList js
      pure (c :: cs)

/-- The observable outcome of the single `requests.get` call: a timeout,
a connection failure, or an HTTP response with a status code and a JSON
body. -/
inductive HttpOutcome where
  | timeout
  | connectionError
  | response (status : Nat) (body : Json)

/-- The response handling of `getContestList` (methods.py lines 124-137):
inside the `try` block, a 200 response is indexed with `r.json()["result"]`
(raising `KeyError` when the key is absent — not caught, since only
`Timeout`, `ConnectionError` and `HTTPError` have handlers) and each element
parsed as a `Contest`; `Timeout`/`ConnectionError` are caught and `None` is
returned; a non-200 response skips the `if` and returns `None`
(`requests.get` never raises `HTTPError` because `raise_for_status` is not
called).  `.error` marks an exception escaping to the caller. -/
def getContestListModel : HttpOutcome → Except PyExc (Option (List Contest))
  | .timeout => .ok Option.none
  | .connectionError => .ok Option.none
  | .response status body =>
      if status = 200 then
        match body.getField "result" with
        | Option.none => .error (.keyError "result")
        | some (.arr xs) => do
            let cs ← parseContestList xs
            pure (some cs)
        | some _ => .error (.typeError "result is not a list of objects")
      else .ok Option.none

/-- The key order used by `sorted(payload.items())`: ascending parameter
name, lexicographically by code points. -/
def keyOrder (a b : String × PyVal) : Prop := strLeb a.1 b.1 = true

theorem charListLe_iff : ∀ a b : List Char, charListLe a b = true ↔ ¬ List.lt b a
  | [], b => by
      refine iff_of_true rfl fun h => ?_
      cases b <;> cases h
  | x :: xs, [] =>
      iff_of_false (by simp [charListLe]) (not_not_intro (List.lt.nil x xs))
  | x :: xs, y :: ys => by
      by_cases hxy : x < y
      · refine iff_of_true (by simp [charListLe, hxy]) fun h => ?_
        cases h with
        | head _ _ h => exact lt_asymm hxy h
        | tail h1 h2 _ => exact h2 hxy
      · by_cases hyx : y < x
        · refine iff_of_false (by simp [charListLe, hxy, hyx]) fun h => ?_
          exact h (List.lt.head ys xs hyx)
        · have : charListLe (x :: xs) (y :: ys) = charListLe xs ys := by
            simp [charListLe, hxy, hyx]
          rw [this, charListLe_iff xs ys]
          constructor
          · intro h h2
            cases h2 with
            | head _ _ h2 => exact hyx h2
            | tail _ _ h3 => exact h h3
          · intro h h2
            exact h (List.lt.tail hyx hxy h2)

/-- Agreement of `strLeb` with the (negated, flipped) lexicographic strict
order `List.lt` of the standard library, i.e. with Python string
comparison. -/
theorem strLeb_iff_not_lt (a b : String) : strLeb a b = true ↔ ¬ List.lt b.data a.data :=
  charListLe_iff a.data b.data

theorem charListLe_total : ∀ a b : List Char, charListLe a b = true ∨ charListLe b a = true
  | [], _ => .inl rfl
  | _ :: _, [] => .inr rfl
  | x :: xs, y :: ys => by
      by_cases hxy : x < y
      · left
        simp [charListLe, hxy]
      · by_cases hyx : y < x
        · right
          simp [charListLe, hyx]
        · rcases charListLe_total xs ys with h | h
          · left
            simp [charListLe, hxy, hyx, h]
          · right
            simp [charListLe, hyx, hxy, h]

theorem charListLe_trans :
    ∀ a b c : List Char, charListLe a b = true → charListLe b c = true →
      charListLe a c = true
  | [], _, _, _, _ => rfl
  | _ :: _, [], _, hab, _ => by simp [charListLe] at hab
  | _ :: _, _ :: _, [], _, hbc => by simp [charListLe] at hbc
  | x :: xs, y :: ys, z :: zs, hab, hbc => by
      by_cases hyx : y < x
      · simp [charListLe, hyx, lt_asymm hyx] at hab
      · by_cases hzy : z < y
        · simp [charListLe, hzy, lt_asymm hzy] at hbc
        · by_cases hxy : x < y
          · by_cases hyz : y < z
            · simp [charListLe, lt_trans hxy hyz]
            · have hyz2 : y = z := le_antisymm (not_lt.mp hzy) (not_lt.mp hyz)
              simp [charListLe, hyz2 ▸ hxy]
          · have hxy2 : x = y := le_antisymm (not_lt.mp hyx) (not_lt.mp hxy)
            by_cases hyz : y < z
            · simp [charListLe, hxy2 ▸ hyz]
            · have hyz2 : y = z := le_antisymm (not_lt.mp hzy) (not_lt.mp hyz)
              simp [charListLe, hxy, hyx, hxy2, hyz2] at hab hbc ⊢
              exact charListLe_trans xs ys zs hab hbc

theorem strLeb_total (a b : String) : strLeb a b = true ∨ strLeb b a = true :=
  charListLe_total a.data b.data

theorem strLeb_trans (a b c : String) (h1 : strLeb a b = true) (h2 : strLeb b c = true) :
    strLeb a c = true :=
  charListLe_trans a.data b.data c.data h1 h2

theorem pyInsort_perm (p : String × PyVal) :
    ∀ l : PyDict, List.Perm (pyInsort p l) (p :: l)
  | [] => List.Perm.refl _
  | q :: qs => by
      unfold pyInsort
      by_cases h : strLeb p.1 q.1
      · rw [if_pos h]
      · rw [if_neg h]
        exact ((pyInsort_perm p qs).cons q).trans (List.Perm.swap p q qs)

theorem pySorted_perm : ∀ l : PyDict, List.Perm (pySorted l) l
  | [] => List.Perm.refl _
  | p :: ps => (pyInsort_perm p (pySorted ps)).trans ((pySorted_perm ps).cons p)

theorem pyInsort_sorted (p : String × PyVal) (l : PyDict)
    (hl : List.Sorted keyOrder l) : List.Sorted keyOrder (pyInsort p l) := by
  induction l with
  | nil => exact List.sorted_singleton p
  | cons q qs ih =>
      obtain ⟨hq, hqs⟩ := List.sorted_cons.mp hl
      unfold pyInsort
      by_cases h : strLeb p.1 q.1 = true
      · rw [if_pos h]
        refine List.sorted_cons.mpr ⟨?_, hl⟩
        intro b hb
        rcases List.mem_cons.mp hb with hbq | hbqs
        · rw [hbq]
          exact h
        · exact strLeb_trans p.1 q.1 b.1 h (hq b hbqs)
      · rw [if_neg h]
        refine List.sorted_cons.mpr ⟨?_, ih hqs⟩
        intro b hb
        rcases List.mem_cons.mp ((pyInsort_perm p qs).mem_iff.mp hb) with hbp | hbqs
        · rw [hbp]
          exact (strLeb_total p.1 q.1).resolve_left h
        · exact hq b hbqs

theorem pySorted_sorted : ∀ l : PyDict, List.Sorted keyOrder (pySorted l)
  | [] => List.sorted_nil
  | p :: ps => pyInsort_sorted p (pySorted ps) (pySorted_sorted ps)

theorem contains_keys_iff (d : PyDict) (k : String) :
    (d.map Prod.fst).contains k = true ↔ k ∈ d.map Prod.fst := by
  simp [List.contains]

theorem dictSet_of_not_mem {d : PyDict} {k : String} (h : k ∉ d.map Prod.fst) (v : PyVal) :
    dictSet d k v = d ++ [(k, v)] := by
  unfold dictSet
  rw [if_neg fun hc => h ((contains_keys_iff d k).mp hc)]

theorem mem_keys_dictSet_self (d : PyDict) (k : String) (v : PyVal) :
    k ∈ (dictSet d k v).map Prod.fst := by
  unfold dictSet
  by_cases hc : (d.map Prod.fst).contains k = true
  · rw [if_pos hc, List.map_map]
    obtain ⟨p, hp, hpk⟩ := List.mem_map.mp ((contains_keys_iff d k).mp hc)
    refine List.mem_map.mpr ⟨p, hp, ?_⟩
    simp [Function.comp, hpk]
  · rw [if_neg hc]
    simp

theorem mem_keys_dictSet_other {k2 k : String} (hne : k2 ≠ k) (d : PyDict) (v : PyVal) :
    k2 ∈ (dictSet d k v).map Prod.fst ↔ k2 ∈ d.map Prod.fst := by
  unfold dictSet
  by_cases hc : (d.map Prod.fst).contains k = true
  · rw [if_pos hc, List.map_map]
    simp only [List.mem_map, Function.comp_apply]
    constructor
    · rintro ⟨p, hp, hpk⟩
      by_cases hpk2 : p.1 = k
      · rw [if_pos hpk2] at hpk
        exact absurd hpk.symm hne
      · rw [if_neg hpk2] at hpk
        exact ⟨p, hp, hpk⟩
    · rintro ⟨p, hp, hpk⟩
      have hpk2 : p.1 ≠ k := fun he => hne (by rw [← hpk, he])
      refine ⟨p, hp, ?_⟩
      rw [if_neg hpk2]
      exact hpk
  · rw [if_neg hc]
    simp [hne]

/-- The response handling of `getBlogEntryComments` (methods.py lines
55-68), with the same structure as `getContestListModel`. -/
def getBlogEntryCommentsModel : HttpOutcome → Except PyExc (Option (List Comment))
  | .timeout => .ok Option.none
  | .connectionError => .ok Option.none
  | .response status body =>
      if status = 200 then
        match body.getField "result" with
        | Option.none => .error (.keyError "result")
        | some (.arr xs) => do
            let cs ← parseCommentList xs
            pure (some cs)
        | some _ => .error (.typeError "result is not a list of objects")
      else .ok Option.none

/-- A lowercase-hexadecimal digit character (0-9 or a-f), the alphabet of
the `hexdigest()` rendering the specification prescribes. -/
def isLowerHexChar (c : Char) : Bool :=
  (48 ≤ c.toNat && c.toNat ≤ 57) || (97 ≤ c.toNat && c.toNat ≤ 102)

/-- Inversion for the `difficulty` validator: a successful parse means the
raw field was missing, `null`, or an in-range number. -/
theorem optIntRangeF_ok_inv {lo hi : Int} {j : Json} {k : String} {v : Option Int}
    (h : optIntRangeF lo hi j k = .ok v) :
    j.getField k = Option.none ∨ j.getField k = some .null ∨
    ∃ d : Int, j.getField k = some (.num d) ∧ lo ≤ d ∧ d ≤ hi := by
  unfold optIntRangeF at h
  cases hf : j.getField k with
  | none => exact .inl rfl
  | some jv =>
      rw [hf] at h
      cases jv with
      | null => exact .inr (.inl rfl)
      | num n =>
          have h2 : (if lo ≤ n ∧ n ≤ hi then (Except.ok (some n) : Except PyExc (Option Int))
              else Except.error (PyExc.validationError k "range")) = Except.ok v := h
          by_cases hr : lo ≤ n ∧ n ≤ hi
          · exact .inr (.inr ⟨n, rfl, hr⟩)
          · rw [if_neg hr] at h2
            exact Except.noConfusion h2
      | bool b =>
          exact Except.noConfusion
            (show Except.error (PyExc.validationError k "value is not a valid integer") =
              Except.ok v from h)
      | str s =>
          exact Except.noConfusion
            (show Except.error (PyExc.validationError k "value is not a valid integer") =
              Except.ok v from h)
      | arr xs =>
          exact Except.noConfusion
            (show Except.error (PyExc.validationError k "value is not a valid integer") =
              Except.ok v from h)
      | obj fs =>
          exact Except.noConfusion
            (show Except.error (PyExc.validationError k "value is not a valid integer") =
              Except.ok v from h)

/-- Claim C1 (code bug): the specification requires
`apiSig = nonce ++ sha512_hexdigest(signingString)`, and at the pinned
inputs the signing string is indeed
`abcdef/user.friends?apiKey=1&onlyOnline=True&time=1700000000#2`
(first conjunct, with key `1` and secret `2`); but line 44 of methods.py
(`payload["apiSig"] = f"{rand}{hash}"`) interpolates the hash object itself,
so the stored `apiSig` is the nonce followed by the CPython `str()` of the
object (second conjunct), which is never the nonce followed by a
lowercase-hex string (third conjunct, for every address and every
hex-alphabet string). -/
theorem getCfAuth_apiSig_object_repr_not_hex :
    getCfAuthRandStr 1 2 "user.friends" [("onlyOnline", .bool true)] "abcdef" 1700000000 =
      "abcdef/user.friends?apiKey=1&onlyOnline=True&time=1700000000#2" ∧
    dictLookup "apiSig"
        (getCfAuth 1 2 "user.friends" [("onlyOnline", .bool true)] "abcdef" 1700000000 4096) =
      some (.str "abcdef<sha512 _hashlib.HASH object @ 0x1000>") ∧
    ∀ (addr : Nat) (hexStr : String), (∀ ch ∈ hexStr.data, isLowerHexChar ch = true) →
      dictLookup "apiSig"
          (getCfAuth 1 2 "user.friends" [("onlyOnline", .bool true)] "abcdef" 1700000000 addr) ≠
        some (.str ("abcdef" ++ hexStr)) := by
  refine ⟨by decide, by decide, ?_⟩
  intro addr hexStr hhex heq
  have hval : dictLookup "apiSig"
      (getCfAuth 1 2 "user.friends" [("onlyOnline", .bool true)] "abcdef" 1700000000 addr) =
      some (.str ("abcdef" ++ pyStrOfHash
        ⟨"abcdef/user.friends?apiKey=1&onlyOnline=True&time=1700000000#2", addr⟩)) := rfl
  have hstr : "abcdef" ++ pyStrOfHash
      ⟨"abcdef/user.friends?apiKey=1&onlyOnline=True&time=1700000000#2", addr⟩ =
      "abcdef" ++ hexStr := by
    have h2 := hval.symm.trans heq
    simpa using h2
  have hdata : (pyStrOfHash
      ⟨"abcdef/user.friends?apiKey=1&onlyOnline=True&time=1700000000#2", addr⟩).data =
      hexStr.data := by
    have h2 := congrArg String.data hstr
    rw [String.data_append, String.data_append] at h2
    exact List.append_cancel_left h2
  have hmem : ('<' : Char) ∈ hexStr.data := by
    rw [← hdata]
    show ('<' : Char) ∈ ("<sha512 _hashlib.HASH object @ 0x" ++ natToHex addr ++ ">").data
    rw [String.data_append, String.data_append]
    exact List.mem_append.mpr (.inl (List.mem_append.mpr (.inl (by decide))))
  exact absurd (hhex _ hmem) (by decide)

theorem getCfAuth_apiSig_object_repr_not_hex_witness :
    dictLookup "apiSig"
        (getCfAuth 1 2 "user.friends" [("onlyOnline", .bool true)] "abcdef" 1700000000 0) ≠
      some (.str ("abcdef" ++ "00")) :=
  getCfAuth_apiSig_object_repr_not_hex.2.2 0 "00" (by decide)

/-- Claim C3 (code bug): with key, secret, method name, payload, nonce and
time all fixed, two invocations of `getCfAuth` still produce different
`apiSig` strings whenever the `sha512` objects are allocated at different
addresses, because the stored value renders the object (address included)
instead of the digest. -/
theorem getCfAuth_apiSig_depends_on_address :
    getCfAuth 1 2 "user.friends" [("onlyOnline", .bool true)] "abcdef" 1700000000 4096 ≠
      getCfAuth 1 2 "user.friends" [("onlyOnline", .bool true)] "abcdef" 1700000000 8192 := by
  decide

/-- Claim C4 (code bug): when `getUserFriends` is called with `onlyOnline`
unset, the payload keeps the entry `onlyOnline = None`; the signing string
therefore contains `onlyOnline=None` (first conjunct), the entry survives
into the transmitted payload dict (second conjunct), and yet the
query-string encoding of the `requests` library drops it (third conjunct) —
so the string that is signed is not the string that is transmitted. -/
theorem getUserFriends_unset_param_signed_but_not_sent :
    getCfAuthRandStr 1 2 "user.friends" (getUserFriendsPayload Option.none) "abcdef" 1700000000 =
      "abcdef/user.friends?apiKey=1&onlyOnline=None&time=1700000000#2" ∧
    ("onlyOnline", PyVal.none) ∈
      getUserFriendsAuthedPayload 1 2 Option.none "abcdef" 1700000000 4096 ∧
    "onlyOnline" ∉
      (requestsEncode
        (getUserFriendsAuthedPayload 1 2 Option.none "abcdef" 1700000000 4096)).map
        Prod.fst := by
  decide

/-- Counterexample to claim C5: `getUserInfo` with an empty handle list puts
the empty string under `"handles"` (the join is unconditional), and the
transmitted query therefore contains the key `handles` with an empty value
instead of omitting it. -/
theorem getUserInfo_empty_handles_sent_as_empty_string :
    getUserInfoPayload [] = [("handles", .str "")] ∧
    requestsEncode (getUserInfoPayload []) = [("handles", "")] ∧
    "handles" ∈ (requestsEncode (getUserInfoPayload [])).map Prod.fst := by
  decide

/-- Claim C5 as amended: non-empty lists `[a, b, c]` always serialize to
`"a;b;c"` preserving order (in `getUserInfo`, `getProblemsetProblems` and
`getContestStandings`); an empty or absent `handles` list in
`getContestStandings` is omitted from the transmitted parameters; but in
`getUserInfo` and `getProblemsetProblems` an empty list is serialized as
the empty string and transmitted as such. -/
theorem list_params_join_order_and_empty_behavior (a b c : String) (pn : Option String)
    (cid : Int) (am su : Option Bool) (f cnt room : Option Int) :
    getUserInfoPayload [a, b, c] = [("handles", .str (a ++ ";" ++ b ++ ";" ++ c))] ∧
    getProblemsetProblemsPayload [a, b, c] pn =
      [("tags", .str (a ++ ";" ++ b ++ ";" ++ c)), ("problemsetName", pyOfOptStr pn)] ∧
    dictLookup "handles" (getContestStandingsPayload cid am f cnt (some [a, b, c]) room su) =
      some (.str (a ++ ";" ++ b ++ ";" ++ c)) ∧
    "handles" ∉
      (requestsEncode (getContestStandingsPayload cid am f cnt (some []) room su)).map
        Prod.fst ∧
    "handles" ∉
      (requestsEncode (getContestStandingsPayload cid am f cnt Option.none room su)).map
        Prod.fst ∧
    requestsEncode (getUserInfoPayload []) = [("handles", "")] ∧
    requestsEncode (getProblemsetProblemsPayload [] Option.none) = [("tags", "")] := by
  refine ⟨?_, ?_, ?_, ?_, ?_, rfl, rfl⟩
  · simp [getUserInfoPayload, pyJoin, String.append_assoc]
  · simp [getProblemsetProblemsPayload, pyJoin, String.append_assoc]
  · simp [getContestStandingsPayload, dictLookup, pyJoin, String.append_assoc]
  · cases am <;> cases f <;> cases cnt <;>
      simp [getContestStandingsPayload, requestsEncode, pyOfOptBool, pyOfOptInt]
  · cases am <;> cases f <;> cases cnt <;>
      simp [getContestStandingsPayload, requestsEncode, pyOfOptBool, pyOfOptInt]

/-- The FAILED response envelope of the specification's example, as the
parsed JSON body of an HTTP 200 response. -/
def failedEnvelope : Json :=
  .obj [("status", .str "FAILED"), ("comment", .str "contestId: Contest not found")]

/-- Claim C2 (code bug): on an HTTP 200 response whose envelope is
`{"status": "FAILED", "comment": "contestId: Contest not found"}`,
`getContestList` evaluates `r.json()["result"]` and raises `KeyError`,
which none of its `except` clauses catch — the exception escapes to the
caller, and no `ApiFailure` carrying the comment exists anywhere in the
code. -/
theorem getContestList_failed_envelope_raises_keyError :
    getContestListModel (.response 200 failedEnvelope) = .error (.keyError "result") := rfl

/-- Counterexample to claim C7: two non-200 responses with different status
codes and bodies produce the very same bare `None` result — no `HttpFailure`
carrying the status code or body is returned (the raised-`HTTPError` branch
is dead code because `raise_for_status` is never called). -/
theorem getBlogEntryComments_non200_carries_no_failure_info :
    getBlogEntryCommentsModel (.response 404 (.str "Not Found")) = .ok Option.none ∧
    getBlogEntryCommentsModel
        (.response 500 (.obj [("status", .str "FAILED"), ("comment", .str "Internal error")])) =
      .ok Option.none ∧
    getBlogEntryCommentsModel (.response 404 (.str "Not Found")) =
      getBlogEntryCommentsModel
        (.response 500 (.obj [("status", .str "FAILED"), ("comment", .str "Internal error")])) :=
  ⟨rfl, rfl, rfl⟩

/-- Claim C7 as amended: for every non-200 response the call returns a bare
`None` — absent result, no exception escaping, and no failure
classification of any kind. -/
theorem getBlogEntryComments_non200_returns_bare_none (s : Nat) (b : Json) (h : s ≠ 200) :
    getBlogEntryCommentsModel (.response s b) = .ok Option.none := by
  simp only [getBlogEntryCommentsModel]
  rw [if_neg h]

theorem getBlogEntryComments_non200_returns_bare_none_witness :
    getBlogEntryCommentsModel (.response 404 (.str "err")) = .ok Option.none :=
  getBlogEntryComments_non200_returns_bare_none 404 (.str "err") (by decide)

/-- Counterexample to claim C9: when the caller's payload already contains a
`"time"` entry, `getCfAuth` overwrites its value (the pre-existing entry
`("time", 5)` is gone from the result) and only two keys are added, not
three. -/
theorem getCfAuth_overwrites_preexisting_time_key :
    ("time", PyVal.int 5) ∈ ([("time", PyVal.int 5)] : PyDict) ∧
    ("time", PyVal.int 5) ∉
      getCfAuth 1 2 "user.friends" [("time", PyVal.int 5)] "abcdef" 100 4096 ∧
    (getCfAuth 1 2 "user.friends" [("time", PyVal.int 5)] "abcdef" 100 4096).map Prod.fst =
      ["time", "apiKey", "apiSig"] := by
  decide

/-- Claim C9 as amended: provided the caller's payload contains none of the
keys `apiKey`, `time`, `apiSig` (as at every call site in the repository),
`getCfAuth` returns the given mapping with every pre-existing entry
unchanged and in place, and with exactly the three entries `apiKey` (the
caller's key), `time` and `apiSig` appended; no other key is added or
removed. -/
theorem getCfAuth_frame (key secret : Int) (m : String) (p : PyDict)
    (nonceToken : String) (t : Int) (addr : Nat)
    (h1 : "apiKey" ∉ p.map Prod.fst) (h2 : "time" ∉ p.map Prod.fst)
    (h3 : "apiSig" ∉ p.map Prod.fst) :
    getCfAuth key secret m p nonceToken t addr =
      p ++ [("apiKey", PyVal.int key), ("time", PyVal.int t),
            ("apiSig", PyVal.str (nonceToken.take 6 ++
              pyStrOfHash ⟨getCfAuthRandStr key secret m p nonceToken t, addr⟩))] := by
  have h2b : "time" ∉ (p ++ [("apiKey", PyVal.int key)]).map Prod.fst := by
    simp only [List.map_append, List.mem_append, List.map_cons, List.map_nil,
      List.mem_singleton]
    rintro (hx | hx)
    · exact h2 hx
    · exact absurd hx (by decide)
  have h3b : "apiSig" ∉
      ((p ++ [("apiKey", PyVal.int key)]) ++ [("time", PyVal.int t)]).map Prod.fst := by
    simp only [List.map_append, List.mem_append, List.map_cons, List.map_nil,
      List.mem_singleton]
    rintro ((hx | hx) | hx)
    · exact h3 hx
    · exact absurd hx (by decide)
    · exact absurd hx (by decide)
  simp only [getCfAuth]
  rw [dictSet_of_not_mem h1, dictSet_of_not_mem h2b, dictSet_of_not_mem h3b]
  simp [List.append_assoc]

theorem getCfAuth_frame_witness :
    getCfAuth 1 2 "user.friends" [("onlyOnline", PyVal.bool true)] "abcdef" 1700000000 4096 =
      [("onlyOnline", PyVal.bool true)] ++
        [("apiKey", PyVal.int 1), ("time", PyVal.int 1700000000),
         ("apiSig", PyVal.str ("abcdef".take 6 ++
           pyStrOfHash ⟨getCfAuthRandStr 1 2 "user.friends"
             [("onlyOnline", PyVal.bool true)] "abcdef" 1700000000, 4096⟩))] :=
  getCfAuth_frame 1 2 "user.friends" [("onlyOnline", PyVal.bool true)] "abcdef" 1700000000
    4096 (by decide) (by decide) (by decide)

/-- Claim C10: the parameter mapping transmitted by `getUserStatus` contains
only the key `handle`; two invocations with the same handle but different
`from_`/`count` arguments build identical payloads and identical transmitted
query parameters. -/
theorem getUserStatus_transmits_only_handle (handle : String) (f1 c1 f2 c2 : Option Int) :
    getUserStatusPayload handle f1 c1 = getUserStatusPayload handle f2 c2 ∧
    (getUserStatusPayload handle f1 c1).map Prod.fst = ["handle"] ∧
    requestsEncode (getUserStatusPayload handle f1 c1) = [("handle", handle)] :=
  ⟨rfl, rfl, rfl⟩

/-- Claim C8: the signing string built by `getCfAuth` has the shape
`{nonce}/{methodName}?{sortedParams}#{secret}`, where `sortedParams` joins
the `name=value` pairs with `&` over a permutation of all parameters —
`apiKey` and `time` included, the not-yet-computed `apiSig` excluded —
sorted ascending by parameter name (lexicographically by code points). -/
theorem getCfAuth_signing_string_shape (key secret : Int) (m : String) (p : PyDict)
    (nonceToken : String) (t : Int) (hsig : "apiSig" ∉ p.map Prod.fst) :
    ∃ l : PyDict,
      l.Perm (dictSet (dictSet p "apiKey" (.int key)) "time" (.int t)) ∧
      List.Sorted keyOrder l ∧
      "apiKey" ∈ (dictSet (dictSet p "apiKey" (.int key)) "time" (.int t)).map Prod.fst ∧
      "time" ∈ (dictSet (dictSet p "apiKey" (.int key)) "time" (.int t)).map Prod.fst ∧
      "apiSig" ∉ l.map Prod.fst ∧
      getCfAuthRandStr key secret m p nonceToken t =
        nonceToken.take 6 ++ "/" ++ m ++ "?" ++
          pyJoin "&" (l.map fun q => q.1 ++ "=" ++ pyStr q.2) ++ "#" ++ intToDec secret := by
  refine ⟨pySorted (dictSet (dictSet p "apiKey" (.int key)) "time" (.int t)),
    pySorted_perm _, pySorted_sorted _, ?_, mem_keys_dictSet_self _ _ _, ?_, rfl⟩
  · exact (mem_keys_dictSet_other (by decide) _ _).mpr (mem_keys_dictSet_self _ _ _)
  · intro hmem
    have hE : "apiSig" ∈
        (dictSet (dictSet p "apiKey" (.int key)) "time" (.int t)).map Prod.fst :=
      ((pySorted_perm _).map Prod.fst).mem_iff.mp hmem
    have hK : "apiSig" ∈ (dictSet p "apiKey" (.int key)).map Prod.fst :=
      (mem_keys_dictSet_other (by decide) _ _).mp hE
    exact hsig ((mem_keys_dictSet_other (by decide) _ _).mp hK)

theorem getCfAuth_signing_string_shape_witness :
    ∃ l : PyDict,
      l.Perm (dictSet (dictSet [("onlyOnline", PyVal.bool true)] "apiKey" (.int 1))
        "time" (.int 1700000000)) ∧
      List.Sorted keyOrder l ∧
      "apiKey" ∈ (dictSet (dictSet [("onlyOnline", PyVal.bool true)] "apiKey" (.int 1))
        "time" (.int 1700000000)).map Prod.fst ∧
      "time" ∈ (dictSet (dictSet [("onlyOnline", PyVal.bool true)] "apiKey" (.int 1))
        "time" (.int 1700000000)).map Prod.fst ∧
      "apiSig" ∉ l.map Prod.fst ∧
      getCfAuthRandStr 1 2 "user.friends" [("onlyOnline", PyVal.bool true)]
          "abcdef" 1700000000 =
        "abcdef".take 6 ++ "/" ++ "user.friends" ++ "?" ++
          pyJoin "&" (l.map fun q => q.1 ++ "=" ++ pyStr q.2) ++ "#" ++ intToDec 2 :=
  getCfAuth_signing_string_shape 1 2 "user.friends" [("onlyOnline", PyVal.bool true)]
    "abcdef" 1700000000 (by decide)

/-- A valid raw contest object except that `difficulty` is `7`, outside the
declared 1-5 range. -/
def contestJson7 : Json := .obj
  [("id", .num 566), ("name", .str "Example Round"), ("type", .str "CF"),
   ("phase", .str "FINISHED"), ("frozen", .bool false),
   ("durationSeconds", .num 7200), ("difficulty", .num 7)]

/-- The same raw contest object with the `difficulty` key absent. -/
def contestJsonNoDifficulty : Json := .obj
  [("id", .num 566), ("name", .str "Example Round"), ("type", .str "CF"),
   ("phase", .str "FINISHED"), ("frozen", .bool false),
   ("durationSeconds", .num 7200)]

/-- The decoded `Contest` for `contestJsonNoDifficulty`. -/
def contestNoDifficultyParsed : Contest :=
  ⟨566, "Example Round", "CF", "FINISHED", false, 7200, Option.none, Option.none,
   Option.none, Option.none, Option.none, Option.none, Option.none, Option.none,
   Option.none, Option.none, Option.none⟩

/-- Claim C6: decoding a `Contest` succeeds only when `difficulty` is absent
(missing or `null`) or lies in the inclusive range 1-5 (first conjunct, for
every raw object); every raw object carrying an out-of-range `difficulty`
fails to decode (second conjunct); decoding the example with
`difficulty = 7` fails with the validation error naming `difficulty` (third
conjunct); and decoding the same object with `difficulty` absent succeeds
(fourth conjunct). -/
theorem contest_difficulty_range_validated :
    (∀ (j : Json) (c : Contest), Contest.parseObj j = .ok c →
        j.getField "difficulty" = Option.none ∨
        j.getField "difficulty" = some .null ∨
        ∃ d : Int, j.getField "difficulty" = some (.num d) ∧ 1 ≤ d ∧ d ≤ 5) ∧
    (∀ (j : Json) (d : Int), j.getField "difficulty" = some (.num d) →
        d < 1 ∨ 5 < d → ∃ e, Contest.parseObj j = .error e) ∧
    Contest.parseObj contestJson7 = .error (.validationError "difficulty" "range") ∧
    Contest.parseObj contestJsonNoDifficulty = .ok contestNoDifficultyParsed := by
  have hmain : ∀ (j : Json) (c : Contest), Contest.parseObj j = .ok c →
      j.getField "difficulty" = Option.none ∨
      j.getField "difficulty" = some .null ∨
      ∃ d : Int, j.getField "difficulty" = some (.num d) ∧ 1 ≤ d ∧ d ≤ 5 := by
    intro j c h
    unfold Contest.parseObj at h
    obtain ⟨v1, h1, h⟩ := exceptBind_ok h
    obtain ⟨v2, h2, h⟩ := exceptBind_ok h
    obtain ⟨v3, h3, h⟩ := exceptBind_ok h
    obtain ⟨v4, h4, h⟩ := exceptBind_ok h
    obtain ⟨v5, h5, h⟩ := exceptBind_ok h
    obtain ⟨v6, h6, h⟩ := exceptBind_ok h
    obtain ⟨v7, h7, h⟩ := exceptBind_ok h
    obtain ⟨v8, h8, h⟩ := exceptBind_ok h
    obtain ⟨v9, h9, h⟩ := exceptBind_ok h
    obtain ⟨v10, h10, h⟩ := exceptBind_ok h
    obtain ⟨v11, h11, h⟩ := exceptBind_ok h
    obtain ⟨v12, h12, h⟩ := exceptBind_ok h
    exact optIntRangeF_ok_inv h12
  refine ⟨hmain, ?_, rfl, rfl⟩
  intro j d hf hd
  cases hres : Contest.parseObj j with
  | error e => exact ⟨e, rfl⟩
  | ok c =>
      exfalso
      rcases hmain j c hres with h0 | h0 | ⟨d2, h0, hlo, hhi⟩
      · rw [hf] at h0
        exact Option.noConfusion h0
      · rw [hf] at h0
        cases Option.some.inj h0
      · rw [hf] at h0
        have hdd : d = d2 := Json.num.inj (Option.some.inj h0)
        rcases hd with hd | hd
        · exact absurd (hdd ▸ hlo) (not_le.mpr hd)
        · exact absurd (hdd ▸ hhi) (not_le.mpr hd)

theorem contest_difficulty_range_validated_witness :
    contestJsonNoDifficulty.getField "difficulty" = Option.none ∨
    contestJsonNoDifficulty.getField "difficulty" = some .null ∨
    ∃ d : Int, contestJsonNoDifficulty.getField "difficulty" = some (.num d) ∧
      1 ≤ d ∧ d ≤ 5 :=
  contest_difficulty_range_validated.1 contestJsonNoDifficulty
    contestNoDifficultyParsed rfl
